import Mathlib

/-!
# Verification of the tcpproxy connection-handling core

A shallow embedding of the Rust sources `src/main.rs` and `src/sys.rs` of the
tcpproxy repository, together with theorems settling the specification claims
about the zero-copy buffers, the per-connection transfer step, connection
teardown, the acceptor, and the event-loop dispatch.

Syscall results are modelled by an oracle: a list of responses, consumed in
order, where `SpliceRes.ok n` stands for a successful `splice(2)` returning
`n ≥ 0` bytes and `SpliceRes.err e` for a failure with errno `e`.  A function
driven by an oracle returns `none` when the oracle runs out mid-loop; theorems
quantify over completed runs (`= some _`).
-/

namespace TcpProxy

/-- Linux errno EAGAIN, the "would block" code tested by the splice loops. -/
def EAGAIN : Int := 11

/-- Linux errno EINPROGRESS, the non-blocking-connect-in-progress code
tested by `connect_tcp`. -/
def EINPROGRESS : Int := 115

/-- Result of one `splice(2)` call as seen through the `syscall!` macro:
a non-negative byte count on success, an errno on failure. -/
inductive SpliceRes where
  | ok (n : Nat)
  | err (e : Int)
  deriving DecidableEq, Repr

namespace IoBuf

/-- `IoBuf::splice_in` (main.rs:178-204).  State is the `buffered` count;
`cap` is the process-wide `PIPE_SIZE`.  Loops while `buffered < cap`:
an `EAGAIN` stops the loop (`Ok false`), any other errno is fatal
(`Err e`), a zero-length read returns `Ok true` (eof) unconditionally,
and a positive read adds to `buffered`.  Returns the result paired with
the final `buffered` count. -/
def splice_in (cap : Int) : Int → List SpliceRes → Option (Except Int Bool × Int)
  | b, [] => if b < cap then none else some (.ok false, b)
  | b, op :: rest =>
    if b < cap then
      match op with
      | .err e => if e = EAGAIN then some (.ok false, b) else some (.error e, b)
      | .ok n => if n = 0 then some (.ok true, b) else splice_in cap (b + n) rest
    else some (.ok false, b)

/-- `IoBuf::splice_out` (main.rs:206-228).  Loops while `buffered > 0`:
`EAGAIN` stops the loop, any other errno is fatal, and a successful
splice of `n` bytes subtracts `n` from `buffered`. -/
def splice_out : Int → List SpliceRes → Option (Except Int Unit × Int)
  | b, [] => if 0 < b then none else some (.ok (), b)
  | b, op :: rest =>
    if 0 < b then
      match op with
      | .err e => if e = EAGAIN then some (.ok (), b) else some (.error e, b)
      | .ok n => splice_out (b - n) rest
    else some (.ok (), b)

/-- `IoBuf::is_empty` (main.rs:174-176). -/
def is_empty (b : Int) : Bool := b = 0

end IoBuf

namespace PipeBuf

/-- `PipeBuf::splice_in` (sys.rs:42-71).  Identical to `IoBuf::splice_in`
except at a zero-length read: it returns `Ok true` only when `buffered == 0`,
and otherwise breaks out of the loop, yielding `Ok false`. -/
def splice_in (cap : Int) : Int → List SpliceRes → Option (Except Int Bool × Int)
  | b, [] => if b < cap then none else some (.ok false, b)
  | b, op :: rest =>
    if b < cap then
      match op with
      | .err e => if e = EAGAIN then some (.ok false, b) else some (.error e, b)
      | .ok n =>
        if n = 0 then
          if b = 0 then some (.ok true, b) else some (.ok false, b)
        else splice_in cap (b + n) rest
    else some (.ok false, b)

end PipeBuf

/-- Whether the `splice_in` loop run consumes a zero-length read before
stopping: mirrors the loop structure of `IoBuf::splice_in`, answering
"did the source report end-of-stream during this run". -/
def consumesZeroRead (cap : Int) : Int → List SpliceRes → Bool
  | _, [] => false
  | b, op :: rest =>
    if b < cap then
      match op with
      | .err _ => false
      | .ok n => if n = 0 then true else consumesZeroRead cap (b + n) rest
    else false

/-- How `PipeBuf::splice_in`'s result differs from `IoBuf::splice_in`'s on
the same oracle: an eof report (`Ok true`) is downgraded to `Ok false` when
the buffer is non-empty at that point; every other result is unchanged. -/
def pipeAdjust (r : Except Int Bool) (b : Int) : Except Int Bool :=
  match r with
  | .ok true => if IoBuf.is_empty b then .ok true else .ok false
  | r => r

/-- Kernel contract for the reads consumed by a `splice_in` run: `splice`
is asked for `cap - buffered` bytes each time, so each successful response
delivers at most that many.  Only responses the loop actually consumes are
constrained. -/
def admissibleIn (cap : Int) : Int → List SpliceRes → Bool
  | _, [] => true
  | b, op :: rest =>
    if b < cap then
      match op with
      | .err _ => true
      | .ok n =>
        if n = 0 then true
        else decide ((n : Int) ≤ cap - b) && admissibleIn cap (b + n) rest
    else true

/-- Kernel contract for the writes consumed by a `splice_out` run: `splice`
is asked for `buffered` bytes each time, so each successful response moves
at most that many. -/
def admissibleOut : Int → List SpliceRes → Bool
  | _, [] => true
  | b, op :: rest =>
    if 0 < b then
      match op with
      | .err _ => true
      | .ok n => decide ((n : Int) ≤ b) && admissibleOut (b - n) rest
    else true

/-- Outcome of one `Context::copy` run: the returned `SysResult<()>`
(`Err 0` encodes the terminal stream-complete signal), the final
`buffered` count of the buffer involved, and whether `splice_out` was
invoked (instrumentation recording the `if !buf.is_empty()` branch). -/
structure CopyResult where
  res : Except Int Unit
  buffered : Int
  outCalled : Bool
  deriving Repr

/-- `Context` (main.rs:240-248).  The two buffers are represented by their
`buffered` counts; `epollDels` and `pdDrops` count the observable teardown
effects of `shutdown` (two `epoll_del` calls and two `PollDesp` box drops),
standing in for the side effects on the multiplexer and the descriptors. -/
structure Context where
  bad : Bool
  in_buf : Int
  out_buf : Int
  epollDels : Nat
  pdDrops : Nat
  deriving DecidableEq, Repr

namespace Context

/-- `Context::copy` (main.rs:263-273): run `splice_in` on the source; if the
buffer is then non-empty, run `splice_out` on the destination (propagating
its error); finally return `Err 0` when `splice_in` reported eof and the
buffer is empty, `Ok(())` otherwise. -/
def copy (cap : Int) (b : Int) (inOps outOps : List SpliceRes) : Option CopyResult :=
  match IoBuf.splice_in cap b inOps with
  | none => none
  | some (.error e, b') => some ⟨.error e, b', false⟩
  | some (.ok eof, b') =>
    if !IoBuf.is_empty b' then
      match IoBuf.splice_out b' outOps with
      | none => none
      | some (.error e, b'') => some ⟨.error e, b'', true⟩
      | some (.ok _, b'') =>
        if eof && IoBuf.is_empty b'' then some ⟨.error 0, b'', true⟩
        else some ⟨.ok (), b'', true⟩
    else
      if eof && IoBuf.is_empty b' then some ⟨.error 0, b', false⟩
      else some ⟨.ok (), b', false⟩

/-- `Context::copy_from` (main.rs:275-281): `Err 0` immediately when `bad`,
otherwise `copy` on the inbound buffer from `client_fd` to `backend_fd`. -/
def copy_from (c : Context) (cap : Int) (inOps outOps : List SpliceRes) :
    Option (Except Int Unit × Context) :=
  if c.bad then some (.error 0, c)
  else
    match copy cap c.in_buf inOps outOps with
    | none => none
    | some r => some (r.res, { c with in_buf := r.buffered })

/-- `Context::copy_to` (main.rs:283-289): symmetric to `copy_from`, on the
outbound buffer from `backend_fd` to `client_fd`. -/
def copy_to (c : Context) (cap : Int) (inOps outOps : List SpliceRes) :
    Option (Except Int Unit × Context) :=
  if c.bad then some (.error 0, c)
  else
    match copy cap c.out_buf inOps outOps with
    | none => none
    | some r => some (r.res, { c with out_buf := r.buffered })

/-- `Context::shutdown` (main.rs:291-299): on the first call, deregister both
sockets from epoll, drop both `PollDesp` boxes, and set `bad`; afterwards a
no-op. -/
def shutdown (c : Context) : Context :=
  if !c.bad then
    { c with epollDels := c.epollDels + 2, pdDrops := c.pdDrops + 2, bad := true }
  else c

end Context

/-- Environment of syscall outcomes driving one `handle_client` run:
`none` means the syscall succeeded, `some e` that it failed with errno `e`.
`pipe1Err`/`pipe2Err` are the `pipe(2)` calls of the two `IoBuf::new`s
inside `Context::new`; `epollAdd1Err`/`epollAdd2Err` the two `epoll_add`
registrations. -/
structure HandleEnv where
  socketErr : Option Int
  connectErr : Option Int
  pipe1Err : Option Int
  pipe2Err : Option Int
  epollAdd1Err : Option Int
  epollAdd2Err : Option Int
  deriving DecidableEq, Repr

/-- How a `handle_client` run ends: the client abandoned (connect failure),
a connection fully established, or a process-aborting panic from one of the
`unwrap()` calls. -/
inductive HandleOutcome where
  | abandoned
  | established
  | panicked
  deriving DecidableEq, Repr

/-- Observable outcome of `handle_client`: how it ended, whether the client
descriptor was closed, whether a `Context` was created, and how many
`PollDesp` records were created. -/
structure HandleResult where
  outcome : HandleOutcome
  clientClosed : Bool
  connCreated : Bool
  pdsCreated : Nat
  deriving DecidableEq, Repr

/-- Result of `connect_tcp` (main.rs:49-83): whether it returned `Ok(fd)` or
`Err(e)` (the fd itself is immaterial here), and whether the freshly created
socket was closed on the way out. -/
structure ConnectResult where
  res : Except Int Unit
  fdClosed : Bool
  deriving Repr

/-- `connect_tcp` (main.rs:49-83): if `socket(2)` fails the errno propagates;
otherwise a `connect(2)` failure with errno other than `EINPROGRESS` closes
the new fd and propagates, while success or `EINPROGRESS` returns the fd. -/
def connect_tcp (socketErr connectErr : Option Int) : ConnectResult :=
  match socketErr with
  | some e => ⟨.error e, false⟩
  | none =>
    match connectErr with
    | none => ⟨.ok (), false⟩
    | some e => if e = EINPROGRESS then ⟨.ok (), false⟩ else ⟨.error e, true⟩

/-- `handle_client` (main.rs:323-353): on a `connect_tcp` error, log, close
the client fd and return (nothing created).  Otherwise `Context::new` runs
the two `IoBuf::new`s, whose `pipe(2).unwrap()` panics on failure; then the
two `PollDesp` boxes are created and `epoll_add(..).unwrap()` runs for the
client and then the backend fd, each panicking on failure. -/
def handle_client (env : HandleEnv) : HandleResult :=
  match (connect_tcp env.socketErr env.connectErr).res with
  | .error _ => ⟨.abandoned, true, false, 0⟩
  | .ok _ =>
    match env.pipe1Err with
    | some _ => ⟨.panicked, false, false, 0⟩
    | none =>
      match env.pipe2Err with
      | some _ => ⟨.panicked, false, false, 0⟩
      | none =>
        match env.epollAdd1Err with
        | some _ => ⟨.panicked, false, true, 2⟩
        | none =>
          match env.epollAdd2Err with
          | some _ => ⟨.panicked, false, true, 2⟩
          | none => ⟨.established, false, true, 2⟩

/-- The epoll readiness flags of one event, one Bool per bit the event loop
tests (main.rs:430, 441). -/
structure Flags where
  epin : Bool
  epout : Bool
  eperr : Bool
  ephup : Bool
  eprdhup : Bool
  deriving DecidableEq, Repr

/-- `events[i].events & (EPOLLIN | EPOLLRDHUP | EPOLLERR) != 0` (main.rs:430). -/
def readReady (f : Flags) : Bool := f.epin || f.eprdhup || f.eperr

/-- `events[i].events & (EPOLLOUT | EPOLLERR | EPOLLHUP) != 0` (main.rs:441). -/
def writeReady (f : Flags) : Bool := f.epout || f.eperr || f.ephup

/-- A transfer operation of a `Context`: `copyFrom` = client→backend
(`Context::copy_from`), `copyTo` = backend→client (`Context::copy_to`). -/
inductive Op where
  | copyFrom
  | copyTo
  deriving DecidableEq, Repr

/-- The operation the read branch dispatches (main.rs:431-435):
`pd.who == 0` → `copy_from`, else `copy_to`. -/
def readOp (who : Nat) : Op := if who = 0 then .copyFrom else .copyTo

/-- The operation the write branch dispatches (main.rs:442-446):
`pd.who == 1` → `copy_from`, else `copy_to`. -/
def writeOp (who : Nat) : Op := if who = 1 then .copyFrom else .copyTo

/-- All transfer operations one event dispatches, in order: the read branch
when `readReady`, then the write branch when `writeReady` (main.rs:430-451). -/
def dispatchedOps (who : Nat) (f : Flags) : List Op :=
  (if readReady f then [readOp who] else []) ++ (if writeReady f then [writeOp who] else [])

/-- `if let Err(e) = res { free = true }` (main.rs:436-439, 447-450): any
error result — whatever its value — marks the connection for teardown. -/
def freeAfter (res : Except Int Unit) (free : Bool) : Bool :=
  match res with
  | .error _ => true
  | .ok _ => free

/-- The role tag of a Poll Descriptor, as the spec names it: `ClientSide`
for the registration on `client_fd` (`who == 0`), `BackendSide` for the one
on `backend_fd` (`who == 1`). -/
inductive Role where
  | clientSide
  | backendSide
  deriving DecidableEq, Repr

/-- The role of a `PollDesp` from its `who` tag: `who == 0` is the client-fd
registration, `who == 1` the backend-fd registration (main.rs:339-346). -/
def roleOf (who : Nat) : Role := if who = 0 then .clientSide else .backendSide

/-- Modelled from the spec: the role→direction dispatch table of §4.6.
Readable/error/peer-half-closed flags invoke the transfer whose source is
the role's socket (ClientSide → client-to-backend, BackendSide →
backend-to-client); writable/error/hangup flags invoke the transfer whose
destination is the role's socket (ClientSide → backend-to-client,
BackendSide → client-to-backend).  Written from the spec's words, to be
compared with the dispatch the code performs. -/
def specOps (role : Role) (f : Flags) : List Op :=
  (if f.epin || f.eperr || f.eprdhup then
    [match role with | .clientSide => Op.copyFrom | .backendSide => Op.copyTo]
   else [])
  ++ (if f.epout || f.eperr || f.ephup then
    [match role with | .clientSide => Op.copyTo | .backendSide => Op.copyFrom]
   else [])

/-- Trace record of one dispatched transfer operation (instrumentation):
which connection, which operation, and whether that connection was already
recorded in `defer_free` at the moment of dispatch. -/
structure TraceEntry where
  cid : Nat
  op : Op
  alreadyPending : Bool
  deriving DecidableEq, Repr

/-- One non-listener epoll event: the connection id and `who` tag recovered
from the `PollDesp` token, the readiness flags, and the splice oracles
consumed by the read-branch and write-branch transfer (each a pair of
`splice_in`/`splice_out` responses). -/
structure Event where
  cid : Nat
  who : Nat
  flags : Flags
  rdIn : List SpliceRes
  rdOut : List SpliceRes
  wrIn : List SpliceRes
  wrOut : List SpliceRes
  deriving DecidableEq, Repr

/-- Event-loop state across one batch: the connection store (id → state),
the `defer_free` list (by connection id, duplicates kept exactly as the
source's `Vec` keeps duplicate `Rc` clones), and the dispatch trace. -/
structure LoopState where
  conns : Nat → Context
  deferFree : List Nat
  trace : List TraceEntry

/-- Dispatch one transfer operation of `c` (main.rs:431-435 resp. 442-446):
`copyFrom` runs `Context::copy_from`, `copyTo` runs `Context::copy_to`. -/
def dispatchOp (cap : Int) (c : Context) (op : Op) (inOps outOps : List SpliceRes) :
    Option (Except Int Unit × Context) :=
  match op with
  | .copyFrom => c.copy_from cap inOps outOps
  | .copyTo => c.copy_to cap inOps outOps

/-- Handling of one non-listener event (main.rs:428-456): run the read
branch when `readReady`, then the write branch when `writeReady`, each
marking `free` on an error result; if `free` is set afterwards, append the
connection to `defer_free`.  The trace records each dispatch. -/
def processEvent (cap : Int) (s : LoopState) (ev : Event) : Option LoopState :=
  let pending := decide (ev.cid ∈ s.deferFree)
  let step1 : Option (Context × Bool × List TraceEntry) :=
    if readReady ev.flags then
      match dispatchOp cap (s.conns ev.cid) (readOp ev.who) ev.rdIn ev.rdOut with
      | none => none
      | some (res, c') => some (c', freeAfter res false, [⟨ev.cid, readOp ev.who, pending⟩])
    else some (s.conns ev.cid, false, [])
  match step1 with
  | none => none
  | some (c1, free1, tr1) =>
    let step2 : Option (Context × Bool × List TraceEntry) :=
      if writeReady ev.flags then
        match dispatchOp cap c1 (writeOp ev.who) ev.wrIn ev.wrOut with
        | none => none
        | some (res, c') => some (c', freeAfter res free1, [⟨ev.cid, writeOp ev.who, pending⟩])
      else some (c1, free1, [])
    match step2 with
    | none => none
    | some (c2, free2, tr2) =>
      some { conns := fun i => if i = ev.cid then c2 else s.conns i,
             deferFree := s.deferFree ++ (if free2 then [ev.cid] else []),
             trace := s.trace ++ tr1 ++ tr2 }

/-- Process the events of one batch in return order (main.rs:404-456). -/
def processEvents (cap : Int) : LoopState → List Event → Option LoopState
  | s, [] => some s
  | s, ev :: rest =>
    match processEvent cap s ev with
    | none => none
    | some s' => processEvents cap s' rest

/-- The end-of-batch teardown pass (main.rs:457-460): call
`Context::shutdown` once per entry of `defer_free`, in order. -/
def runDeferFree (conns : Nat → Context) : List Nat → (Nat → Context)
  | [] => conns
  | cid :: rest =>
    runDeferFree (fun i => if i = cid then Context.shutdown (conns cid) else conns i) rest

/-- One full batch (main.rs:403-460): process every event, then run the
deferred teardown pass.  Returns the final connection store, the
`defer_free` list as recorded, and the dispatch trace. -/
def processBatch (cap : Int) (conns : Nat → Context) (evs : List Event) :
    Option ((Nat → Context) × List Nat × List TraceEntry) :=
  match processEvents cap ⟨conns, [], []⟩ evs with
  | none => none
  | some s => some (runDeferFree s.conns s.deferFree, s.deferFree, s.trace)

/-! ## Helper lemmas -/

lemma copy_from_bad {c : Context} (h : c.bad = true) (cap : Int) (iOps oOps : List SpliceRes) :
    c.copy_from cap iOps oOps = some (.error 0, c) := by
  simp [Context.copy_from, h]

lemma copy_to_bad {c : Context} (h : c.bad = true) (cap : Int) (iOps oOps : List SpliceRes) :
    c.copy_to cap iOps oOps = some (.error 0, c) := by
  simp [Context.copy_to, h]

lemma shutdown_idem (c : Context) :
    Context.shutdown (Context.shutdown c) = Context.shutdown c := by
  cases c with
  | mk bad ib ob ed pd => cases bad <;> simp [Context.shutdown]

lemma shutdown_bad (c : Context) : (Context.shutdown c).bad = true := by
  cases c with
  | mk bad ib ob ed pd => cases bad <;> simp [Context.shutdown]

lemma dispatchOp_bad {c : Context} (h : c.bad = true) (cap : Int) (op : Op)
    (iOps oOps : List SpliceRes) :
    dispatchOp cap c op iOps oOps = some (.error 0, c) := by
  cases op with
  | copyFrom => simpa [dispatchOp] using copy_from_bad h cap iOps oOps
  | copyTo => simpa [dispatchOp] using copy_to_bad h cap iOps oOps

lemma handle_client_connect_err {env : HandleEnv} {e : Int}
    (h : (connect_tcp env.socketErr env.connectErr).res = .error e) :
    handle_client env = ⟨.abandoned, true, false, 0⟩ := by
  unfold handle_client
  rw [h]

/-- Bounds for `IoBuf.splice_in` under the kernel contract. -/
lemma splice_in_bounds (cap : Int) :
    ∀ (ops : List SpliceRes) (b : Int), 0 ≤ b → b ≤ cap →
      admissibleIn cap b ops = true →
      ∀ r b', IoBuf.splice_in cap b ops = some (r, b') → 0 ≤ b' ∧ b' ≤ cap := by
  intro ops
  induction ops with
  | nil =>
    intro b h0 hc _ r b' hrun
    by_cases hb : b < cap
    · simp [IoBuf.splice_in, hb] at hrun
    · simp [IoBuf.splice_in, hb] at hrun
      exact hrun.2 ▸ ⟨h0, hc⟩
  | cons op rest ih =>
    intro b h0 hc hadm r b' hrun
    by_cases hb : b < cap
    · cases op with
      | err e =>
        by_cases he : e = EAGAIN <;>
          simp [IoBuf.splice_in, hb, he] at hrun <;>
          exact hrun.2 ▸ ⟨h0, hc⟩
      | ok n =>
        by_cases hn : n = 0
        · simp [IoBuf.splice_in, hb, hn] at hrun
          exact hrun.2 ▸ ⟨h0, hc⟩
        · simp [IoBuf.splice_in, hb, hn] at hrun
          simp [admissibleIn, hb, hn] at hadm
          exact ih (b + n) (by positivity) (by linarith [hadm.1]) hadm.2 r b' hrun
    · simp [IoBuf.splice_in, hb] at hrun
      exact hrun.2 ▸ ⟨h0, hc⟩

/-- Bounds for `IoBuf.splice_out` under the kernel contract. -/
lemma splice_out_bounds (cap : Int) :
    ∀ (ops : List SpliceRes) (b : Int), 0 ≤ b → b ≤ cap →
      admissibleOut b ops = true →
      ∀ r b', IoBuf.splice_out b ops = some (r, b') → 0 ≤ b' ∧ b' ≤ cap := by
  intro ops
  induction ops with
  | nil =>
    intro b h0 hc _ r b' hrun
    by_cases hb : 0 < b
    · simp [IoBuf.splice_out, hb] at hrun
    · simp [IoBuf.splice_out, hb] at hrun
      exact hrun.2 ▸ ⟨h0, hc⟩
  | cons op rest ih =>
    intro b h0 hc hadm r b' hrun
    by_cases hb : 0 < b
    · cases op with
      | err e =>
        by_cases he : e = EAGAIN <;>
          simp [IoBuf.splice_out, hb, he] at hrun <;>
          exact hrun.2 ▸ ⟨h0, hc⟩
      | ok n =>
        simp [IoBuf.splice_out, hb] at hrun
        simp [admissibleOut, hb] at hadm
        exact ih (b - n) (by linarith [hadm.1]) (by
          have : (0 : Int) ≤ n := Int.natCast_nonneg n
          linarith) hadm.2 r b' hrun
    · simp [IoBuf.splice_out, hb] at hrun
      exact hrun.2 ▸ ⟨h0, hc⟩

/-- `IoBuf::splice_in` reports eof exactly when its loop consumes a
zero-length read. -/
lemma splice_in_eof_char (cap : Int) :
    ∀ (ops : List SpliceRes) (b : Int) (eof : Bool) (b' : Int),
      IoBuf.splice_in cap b ops = some (.ok eof, b') →
      eof = consumesZeroRead cap b ops := by
  intro ops
  induction ops with
  | nil =>
    intro b eof b' hrun
    by_cases hb : b < cap <;> simp [IoBuf.splice_in, hb] at hrun
    simp [consumesZeroRead, hrun.1.symm]
  | cons op rest ih =>
    intro b eof b' hrun
    by_cases hb : b < cap
    · cases op with
      | err e =>
        by_cases he : e = EAGAIN <;> simp [IoBuf.splice_in, hb, he] at hrun
        simp [consumesZeroRead, hb, he, hrun.1.symm]
      | ok n =>
        by_cases hn : n = 0
        · simp [IoBuf.splice_in, hb, hn] at hrun
          simp [consumesZeroRead, hb, hn, hrun.1.symm]
        · simp only [IoBuf.splice_in, if_pos hb, if_neg hn] at hrun
          simp only [consumesZeroRead, if_pos hb, if_neg hn]
          exact ih (b + n) eof b' hrun
    · simp [IoBuf.splice_in, hb] at hrun
      simp [consumesZeroRead, hb, hrun.1.symm]

/-- `PipeBuf::splice_in` computes exactly `IoBuf::splice_in` with the eof
report adjusted by `pipeAdjust`. -/
lemma pipe_splice_in_eq (cap : Int) :
    ∀ (ops : List SpliceRes) (b : Int),
      PipeBuf.splice_in cap b ops =
        (IoBuf.splice_in cap b ops).map (fun p => (pipeAdjust p.1 p.2, p.2)) := by
  intro ops
  induction ops with
  | nil =>
    intro b
    by_cases hb : b < cap <;> simp [IoBuf.splice_in, PipeBuf.splice_in, hb, pipeAdjust]
  | cons op rest ih =>
    intro b
    by_cases hb : b < cap
    · cases op with
      | err e =>
        by_cases he : e = EAGAIN <;>
          simp [IoBuf.splice_in, PipeBuf.splice_in, hb, he, pipeAdjust]
      | ok n =>
        by_cases hn : n = 0
        · by_cases hbz : b = 0
          · subst hbz
            simp [IoBuf.splice_in, PipeBuf.splice_in, hb, hn, pipeAdjust, IoBuf.is_empty]
          · simp [IoBuf.splice_in, PipeBuf.splice_in, hb, hn, hbz, pipeAdjust,
              IoBuf.is_empty]
        · simp only [IoBuf.splice_in, PipeBuf.splice_in, if_pos hb, if_neg hn]
          exact ih (b + n)
    · simp [IoBuf.splice_in, PipeBuf.splice_in, hb, pipeAdjust]

/-! ## Claim theorems -/

/-- Claim C1, as amended: an immediately failing backend connect terminates
only that connection attempt (the client fd is closed, no Connection and no
Poll Descriptors are created, the process continues); but a resource failure
in the per-connection pipe creation (`IoBuf::new`) or in either epoll
registration inside `handle_client` panics via `unwrap()` and aborts the
process — those post-startup failures are process-fatal, not merely
per-connection-fatal. -/
theorem C1_amended (env : HandleEnv) (e : Int) :
    ((connect_tcp env.socketErr env.connectErr).res = .error e →
        handle_client env = ⟨.abandoned, true, false, 0⟩) ∧
    (env.socketErr = none →
     (env.connectErr = none ∨ env.connectErr = some EINPROGRESS) →
     (env.pipe1Err ≠ none ∨ env.pipe2Err ≠ none ∨
      env.epollAdd1Err ≠ none ∨ env.epollAdd2Err ≠ none) →
        (handle_client env).outcome = .panicked) := by
  constructor
  · exact fun h => handle_client_connect_err h
  · rcases env with ⟨se, ce, p1, p2, a1, a2⟩
    intro hse hce hfail
    dsimp at hse hce hfail ⊢
    subst hse
    have hres : (connect_tcp none ce).res = .ok () := by
      rcases hce with rfl | rfl
      · rfl
      · simp [connect_tcp]
    cases p1 with
    | some _ => simp [handle_client, hres]
    | none =>
      cases p2 with
      | some _ => simp [handle_client, hres]
      | none =>
        cases a1 with
        | some _ => simp [handle_client, hres]
        | none =>
          cases a2 with
          | some _ => simp [handle_client, hres]
          | none => simp at hfail

/-- A pipe-creation failure inside `IoBuf::new` (errno 24, EMFILE) and an
epoll-registration failure (errno 28, ENOSPC) during `handle_client` both
end in a process-aborting panic, not in a per-connection teardown:
the claim that only startup-phase resource failures are fatal is false. -/
theorem C1_counterexample :
    handle_client ⟨none, none, some 24, none, none, none⟩ =
      ⟨.panicked, false, false, 0⟩ ∧
    handle_client ⟨none, none, none, none, some 28, none⟩ =
      ⟨.panicked, false, true, 2⟩ :=
  ⟨rfl, rfl⟩

/-- Witness for C1 at a concrete input: an immediate connect failure with
errno 111 (ECONNREFUSED) abandons the client. -/
theorem C1_witness :
    handle_client ⟨none, some 111, none, none, none, none⟩ =
      ⟨.abandoned, true, false, 0⟩ :=
  (C1_amended ⟨none, some 111, none, none, none, none⟩ 111).1 rfl

/-- Claim C2, as amended: within a batch, a connection already recorded in
`defer_free` may well be dispatched again — teardown is deferred to batch
end precisely so that its other Poll Descriptor stays valid; what holds is
that a connection whose `terminate()` has executed (its `bad`/closed flag
set, as happens at the end of the batch of its teardown) is never
transferred again: every transfer operation dispatched to it immediately
returns the terminal signal `Err 0` with the connection untouched, and
handling any event for it leaves every connection's state — in particular
both its buffers — unchanged, merely re-recording the connection as
pending (for the idempotent teardown) and tracing the dispatches. -/
theorem C2_amended (cap : Int) (s : LoopState) (ev : Event)
    (h : (s.conns ev.cid).bad = true) :
    (∀ op iOps oOps, dispatchOp cap (s.conns ev.cid) op iOps oOps =
        some (.error 0, s.conns ev.cid)) ∧
    processEvent cap s ev = some
      { conns := s.conns,
        deferFree := s.deferFree ++
          (if readReady ev.flags || writeReady ev.flags then [ev.cid] else []),
        trace := s.trace ++ (dispatchedOps ev.who ev.flags).map
          (fun op => ⟨ev.cid, op, decide (ev.cid ∈ s.deferFree)⟩) } := by
  have hconns : (fun i => if i = ev.cid then s.conns ev.cid else s.conns i) = s.conns := by
    funext i
    by_cases hi : i = ev.cid <;> simp [hi]
  refine ⟨fun op iOps oOps => dispatchOp_bad h cap op iOps oOps, ?_⟩
  cases hr : readReady ev.flags <;> cases hw : writeReady ev.flags <;>
    simp [processEvent, hr, hw, dispatchOp_bad h, freeAfter, dispatchedOps,
      hconns]

/-- A batch holding both Poll Descriptors of connection 0, where the first
event reaches the terminal condition: the second event is still dispatched
to a transfer operation of connection 0 (trace entry with
`alreadyPending = true`), refuting "never dispatches a further event of the
same batch to a connection scheduled for teardown". -/
theorem C2_counterexample :
    (processBatch 4 (fun _ => ⟨false, 0, 0, 0, 0⟩)
        [⟨0, 0, ⟨true, false, false, false, false⟩, [.ok 0], [], [], []⟩,
         ⟨0, 1, ⟨true, false, false, false, false⟩, [.ok 0], [], [], []⟩]).map
      (fun r => r.2.2) =
    some [⟨0, .copyFrom, false⟩, ⟨0, .copyTo, true⟩] := rfl

/-- Witness for C2 at a concrete input: on a connection whose teardown
already executed (closed flag set), a dispatched transfer returns the
terminal signal `Err 0` with the connection untouched, and handling a
readable+writable event leaves the store unchanged, re-records the
connection as pending once, and traces the two dispatches. -/
theorem C2_witness :
    dispatchOp 4 ⟨true, 0, 0, 2, 2⟩ .copyFrom [] [] =
      some (.error 0, ⟨true, 0, 0, 2, 2⟩) ∧
    processEvent 4 ⟨fun _ => ⟨true, 0, 0, 2, 2⟩, [], []⟩
        ⟨0, 0, ⟨true, true, false, false, false⟩, [], [], [], []⟩ = some
      { conns := fun _ => ⟨true, 0, 0, 2, 2⟩,
        deferFree := [0],
        trace := [⟨0, .copyFrom, false⟩, ⟨0, .copyTo, false⟩] } :=
  ⟨(C2_amended 4 ⟨fun _ => ⟨true, 0, 0, 2, 2⟩, [], []⟩
      ⟨0, 0, ⟨true, true, false, false, false⟩, [], [], [], []⟩ rfl).1 .copyFrom [] [],
   (C2_amended 4 ⟨fun _ => ⟨true, 0, 0, 2, 2⟩, [], []⟩
      ⟨0, 0, ⟨true, true, false, false, false⟩, [], [], [], []⟩ rfl).2⟩

/-- Claim C3, as amended: the pending-teardown list is not deduplicated — a
connection whose two descriptors both reach a terminal/error result in one
batch is recorded twice and `shutdown` is invoked once per record; but
`shutdown` guards on the closed flag, so the net teardown effect equals a
single `shutdown` per distinct pending connection, and connections not
recorded are untouched. -/
theorem C3_amended (l : List Nat) (conns : Nat → Context) (cid : Nat) :
    (cid ∈ l → runDeferFree conns l cid = Context.shutdown (conns cid)) ∧
    (cid ∉ l → runDeferFree conns l cid = conns cid) := by
  induction l generalizing conns with
  | nil =>
    exact ⟨fun h => absurd h (List.not_mem_nil cid), fun _ => rfl⟩
  | cons a rest ih =>
    constructor
    · intro hmem
      show runDeferFree (fun i => if i = a then Context.shutdown (conns a) else conns i)
        rest cid = Context.shutdown (conns cid)
      by_cases hca : cid = a
      · subst hca
        by_cases hr : cid ∈ rest
        · rw [(ih _).1 hr]
          simp [shutdown_idem]
        · rw [(ih _).2 hr]
          simp
      · have hr : cid ∈ rest := by
          rcases List.mem_cons.mp hmem with h1 | h1
          · exact absurd h1 hca
          · exact h1
        rw [(ih _).1 hr]
        simp [hca]
    · intro hmem
      show runDeferFree (fun i => if i = a then Context.shutdown (conns a) else conns i)
        rest cid = conns cid
      have hca : cid ≠ a := fun h => hmem (by simp [h])
      have hr : cid ∉ rest := fun h => hmem (List.mem_cons_of_mem a h)
      rw [(ih _).2 hr]
      simp [hca]

/-- A batch where both Poll Descriptors of connection 0 fail records the
connection twice in `defer_free` — no deduplication happens; the final
state nevertheless shows the teardown effect applied once (closed flag set,
two deregistrations, two descriptor releases). -/
theorem C3_counterexample :
    (processBatch 4 (fun _ => ⟨false, 0, 0, 0, 0⟩)
        [⟨0, 0, ⟨true, false, false, false, false⟩, [.ok 0], [], [], []⟩,
         ⟨0, 1, ⟨true, false, false, false, false⟩, [.ok 0], [], [], []⟩]).map
      (fun r => r.2.1) = some [0, 0] ∧
    (processBatch 4 (fun _ => ⟨false, 0, 0, 0, 0⟩)
        [⟨0, 0, ⟨true, false, false, false, false⟩, [.ok 0], [], [], []⟩,
         ⟨0, 1, ⟨true, false, false, false, false⟩, [.ok 0], [], [], []⟩]).map
      (fun r => r.1 0) = some ⟨true, 0, 0, 2, 2⟩ :=
  ⟨rfl, rfl⟩

/-- Witness for C3 at a concrete input: folding the duplicated pending list
`[0, 0]` equals a single `shutdown` of connection 0. -/
theorem C3_witness :
    runDeferFree (fun _ => ⟨false, 1, 2, 0, 0⟩) [0, 0] 0 =
      Context.shutdown ⟨false, 1, 2, 0, 0⟩ :=
  (C3_amended [0, 0] (fun _ => ⟨false, 1, 2, 0, 0⟩) 0).1 (by simp)

/-- Claim C4, as amended: `IoBuf::splice_in` returns `eof = true` exactly
when its loop consumes a zero-length read, regardless of how many bytes are
buffered; `PipeBuf::splice_in` does not agree with it: it reports eof only
when the zero-length read happens with an empty buffer, and otherwise stops
with `eof = false` (`pipeAdjust` is exactly that discrepancy). -/
theorem C4_amended (cap : Int) (ops : List SpliceRes) (b : Int) :
    (∀ eof b', IoBuf.splice_in cap b ops = some (.ok eof, b') →
        eof = consumesZeroRead cap b ops) ∧
    PipeBuf.splice_in cap b ops =
      (IoBuf.splice_in cap b ops).map (fun p => (pipeAdjust p.1 p.2, p.2)) :=
  ⟨fun eof b' h => splice_in_eof_char cap ops b eof b' h, pipe_splice_in_eq cap ops b⟩

/-- On the oracle "a 2-byte read, then a zero-length read" with 0 bytes
initially buffered, `IoBuf::splice_in` reports `eof = true` while
`PipeBuf::splice_in` reports `eof = false`: the two bundled implementations
disagree, refuting the claim that both return eof exactly on a zero-length
read regardless of the buffered amount. -/
theorem C4_counterexample :
    IoBuf.splice_in 4 0 [.ok 2, .ok 0] = some (.ok true, 2) ∧
    PipeBuf.splice_in 4 0 [.ok 2, .ok 0] = some (.ok false, 2) ∧
    consumesZeroRead 4 0 [.ok 2, .ok 0] = true :=
  ⟨rfl, rfl, rfl⟩

/-- Witness for C4 at a concrete input: a lone zero-length read yields
`eof = true` and indeed consumed a zero-length read. -/
theorem C4_witness : true = consumesZeroRead 4 0 [.ok 0] :=
  (C4_amended 4 [.ok 0] 0).1 true 0 rfl

/-- Claim C5: `Context::copy` first runs `splice_in` on the source; a fatal
error there propagates with `splice_out` never invoked; otherwise
`splice_out` runs exactly when the buffer is then non-empty, its fatal
errors propagate, and in the remaining cases the step returns the terminal
signal (`Err 0`) exactly when `splice_in` reported eof and the buffer ends
empty, and success otherwise. -/
theorem C5_transfer_step (cap b : Int) (inOps outOps : List SpliceRes) :
    (∀ e b', IoBuf.splice_in cap b inOps = some (.error e, b') →
        Context.copy cap b inOps outOps = some ⟨.error e, b', false⟩) ∧
    (∀ eof b', IoBuf.splice_in cap b inOps = some (.ok eof, b') → b' = 0 →
        Context.copy cap b inOps outOps =
          some ⟨if eof then .error 0 else .ok (), b', false⟩) ∧
    (∀ eof b' e b'', IoBuf.splice_in cap b inOps = some (.ok eof, b') → b' ≠ 0 →
        IoBuf.splice_out b' outOps = some (.error e, b'') →
        Context.copy cap b inOps outOps = some ⟨.error e, b'', true⟩) ∧
    (∀ eof b' b'', IoBuf.splice_in cap b inOps = some (.ok eof, b') → b' ≠ 0 →
        IoBuf.splice_out b' outOps = some (.ok (), b'') →
        Context.copy cap b inOps outOps =
          some ⟨if eof && IoBuf.is_empty b'' then .error 0 else .ok (), b'', true⟩) := by
  refine ⟨?_, ?_, ?_, ?_⟩
  · intro e b' h
    simp [Context.copy, h]
  · intro eof b' h hb'
    subst hb'
    cases eof <;> simp [Context.copy, h, IoBuf.is_empty]
  · intro eof b' e b'' h hb' hout
    simp [Context.copy, h, IoBuf.is_empty, hb', hout]
  · intro eof b' b'' h hb' hout
    by_cases hb'' : b'' = 0 <;> cases eof <;>
      simp [Context.copy, h, IoBuf.is_empty, hb', hout, hb'']

/-- Witness for C5 at a concrete input: a lone zero-length read leaves the
buffer empty and the step reports the terminal signal `Err 0` without
invoking `splice_out`. -/
theorem C5_witness : Context.copy 4 0 [.ok 0] [] = some ⟨.error 0, 0, false⟩ :=
  (C5_transfer_step 4 0 [.ok 0] []).2.1 true 0 rfl rfl

/-- Claim C6: `Context::shutdown` is idempotent — a second application
changes nothing, in particular the deregistration and descriptor-release
counters stay put — the closed flag is set after it, and once the closed
flag is true both transfer operations immediately return the terminal
signal `Err 0` with the connection (both buffers) untouched. -/
theorem C6_terminate_idempotent (c : Context) (cap : Int) (iOps oOps : List SpliceRes) :
    Context.shutdown (Context.shutdown c) = Context.shutdown c ∧
    (Context.shutdown c).bad = true ∧
    (c.bad = true →
      c.copy_from cap iOps oOps = some (.error 0, c) ∧
      c.copy_to cap iOps oOps = some (.error 0, c)) :=
  ⟨shutdown_idem c, shutdown_bad c,
   fun h => ⟨copy_from_bad h cap iOps oOps, copy_to_bad h cap iOps oOps⟩⟩

/-- Witness for C6 at a concrete input: on an already-closed connection,
`copy_from` returns `Err 0` and leaves the state unchanged. -/
theorem C6_witness :
    Context.copy_from ⟨true, 5, 7, 2, 2⟩ 4 [] [] = some (.error 0, ⟨true, 5, 7, 2, 2⟩) :=
  ((C6_terminate_idempotent ⟨true, 5, 7, 2, 2⟩ 4 [] []).2.2 rfl).1

/-- Claim C7: starting from `0 ≤ buffered ≤ capacity`, any completed
`splice_in` run whose consumed reads respect the kernel contract (each
delivers at most the `capacity - buffered` bytes requested) ends with
`0 ≤ buffered ≤ capacity`, and likewise any completed `splice_out` run
whose consumed writes move at most the `buffered` bytes requested. -/
theorem C7_buffered_within_bounds (cap b : Int) (ops : List SpliceRes)
    (h0 : 0 ≤ b) (hc : b ≤ cap) :
    (admissibleIn cap b ops = true →
      ∀ r b', IoBuf.splice_in cap b ops = some (r, b') → 0 ≤ b' ∧ b' ≤ cap) ∧
    (admissibleOut b ops = true →
      ∀ r b', IoBuf.splice_out b ops = some (r, b') → 0 ≤ b' ∧ b' ≤ cap) :=
  ⟨fun hadm r b' hrun => splice_in_bounds cap ops b h0 hc hadm r b' hrun,
   fun hadm r b' hrun => splice_out_bounds cap ops b h0 hc hadm r b' hrun⟩

/-- Witness for C7 at a concrete input: a 2-byte read into an empty buffer
of capacity 4 followed by EAGAIN ends within bounds. -/
theorem C7_witness : 0 ≤ (2 : Int) ∧ (2 : Int) ≤ 4 :=
  (C7_buffered_within_bounds 4 0 [.ok 2, .err EAGAIN] (by decide) (by decide)).1
    (by decide) (.ok false) 2 rfl

/-- Claim C8: the event loop's dispatch agrees with the spec's
role→direction table: on readable/error/peer-half-closed flags a ClientSide
descriptor invokes the client→backend transfer and a BackendSide descriptor
the backend→client transfer; on writable/error/hangup flags a ClientSide
descriptor invokes the backend→client transfer and a BackendSide descriptor
the client→backend transfer. -/
theorem C8_role_dispatch (who : Nat) (f : Flags) (h : who = 0 ∨ who = 1) :
    dispatchedOps who f = specOps (roleOf who) f := by
  rcases f with ⟨a, b, c, d, e⟩
  rcases h with rfl | rfl <;>
    cases a <;> cases b <;> cases c <;> cases d <;> cases e <;> rfl

/-- Witness for C8 at a concrete input: a readable event on the client-side
descriptor dispatches exactly the client→backend transfer. -/
theorem C8_witness :
    dispatchedOps 0 ⟨true, false, false, false, false⟩ =
      specOps (roleOf 0) ⟨true, false, false, false, false⟩ :=
  C8_role_dispatch 0 ⟨true, false, false, false, false⟩ (Or.inl rfl)

/-- Claim C9: an immediately failing backend connect (any errno other than
EINPROGRESS) closes the freshly created backend fd, makes `handle_client`
close the client fd and create neither a Connection nor Poll Descriptors;
a connect-in-progress result is indistinguishable from an immediate
connect success, so `handle_client` proceeds identically and creates the
Connection. -/
theorem C9_connect_failure_handling (env : HandleEnv) (e : Int) :
    ((connect_tcp env.socketErr env.connectErr).res = .error e →
        handle_client env = ⟨.abandoned, true, false, 0⟩) ∧
    (env.socketErr = none → env.connectErr = some e → e ≠ EINPROGRESS →
        connect_tcp env.socketErr env.connectErr = ⟨.error e, true⟩) ∧
    (connect_tcp env.socketErr (some EINPROGRESS) = connect_tcp env.socketErr none) ∧
    (env.connectErr = some EINPROGRESS →
        handle_client env = handle_client { env with connectErr := none }) := by
  refine ⟨fun h => handle_client_connect_err h, ?_, ?_, ?_⟩
  · intro hse hce he
    rw [hse, hce]
    simp [connect_tcp, he]
  · cases env.socketErr with
    | some e' => rfl
    | none => simp [connect_tcp]
  · rcases env with ⟨se, ce, p1, p2, a1, a2⟩
    intro hce
    dsimp at hce
    subst hce
    have hconn : connect_tcp se (some EINPROGRESS) = connect_tcp se none := by
      cases se with
      | some e' => rfl
      | none => simp [connect_tcp]
    unfold handle_client
    rw [hconn]

/-- Witness for C9 at a concrete input: errno 111 (ECONNREFUSED) makes
`connect_tcp` close the backend fd and report the error. -/
theorem C9_witness :
    connect_tcp none (some 111) = ⟨.error 111, true⟩ :=
  (C9_connect_failure_handling ⟨none, some 111, none, none, none, none⟩ 111).2.1
    rfl rfl (by decide)

/-- Claim C10: stream completion and per-connection-fatal failures share one
error channel: the already-closed case returns `Err 0`, the terminal
stream-complete condition returns `Err 0`, a fatal splice failure returns
its nonzero errno through the same `Err`, and the event loop's reaction
(`freeAfter`) marks teardown on every `Err` result identically, whatever
the error value, and leaves the flag alone on `Ok`. -/
theorem C10_uniform_error_encoding (c : Context) (cap b e : Int)
    (iOps oOps rest : List SpliceRes) (free : Bool) :
    (c.bad = true → c.copy_from cap iOps oOps = some (.error 0, c)) ∧
    (IoBuf.splice_in cap b iOps = some (.ok true, 0) →
        Context.copy cap b iOps oOps = some ⟨.error 0, 0, false⟩) ∧
    (b < cap → e ≠ EAGAIN →
        Context.copy cap b (.err e :: rest) oOps = some ⟨.error e, b, false⟩) ∧
    freeAfter (.error e) free = true ∧ freeAfter (.ok ()) free = free := by
  refine ⟨fun h => copy_from_bad h cap iOps oOps, ?_, ?_, rfl, rfl⟩
  · intro h
    simp [Context.copy, h, IoBuf.is_empty]
  · intro hb he
    simp [Context.copy, IoBuf.splice_in, hb, he]

/-- Witness for C10 at a concrete input: a fatal errno 104 (ECONNRESET)
from the source propagates through `Context::copy` as `Err 104`. -/
theorem C10_witness :
    Context.copy 4 2 [.err 104] [] = some ⟨.error 104, 2, false⟩ :=
  (C10_uniform_error_encoding ⟨false, 0, 0, 0, 0⟩ 4 2 104 [] [] [] true).2.2.1
    (by decide) (by decide)

end TcpProxy
